import Mathlib

/-!
Shallow embedding of the download-and-cache pipeline of the konami-source
repository, covering:

* the worker pool        (src/src/core/ThreadPool.hpp),
* the cache store        (src/src/core/downloader/CacheManager.cpp),
* the transfer executor and download coordinator
                         (src/src/core/downloader/DownloadManager.cpp),

together with theorems settling the specification claims about them.

Modelling conventions.  C++ classes become structures holding the member
state (field names keep the m_ prefix of the source).  The filesystem view
relevant to the cache (which bucketed cache files exist) is carried in the
structure as a list of hashes; callbacks are recorded as event lists; the
stub transport of the spec is a counter of cpr::Download invocations.
size_t quantities are modelled as Nat: no claim below exercises integer
wrap-around, and every subtraction performed by the modelled code paths is
guarded (the operand subtracted is a size of an entry accounted inside
m_currentSize), so Nat arithmetic agrees with the machine semantics on all
states the theorems quantify over.  Floating point progress fractions are
abstracted to the three values the coordinator itself writes (0, 1, -1).
-/

namespace Konami

/-! ## Worker pool (src/src/core/ThreadPool.hpp) -/

/-- ThreadPool::ThreadPool (ThreadPool.hpp lines 37-52): resolution of the
number of worker threads from the requested count and
std::thread::hardware_concurrency(). -/
def threadPoolWorkerCount (numThreads hardwareConcurrency : Nat) : Nat :=
  if numThreads = 0 then
    if hardwareConcurrency = 0 then 4 else hardwareConcurrency
  else numThreads

/-- The queue state of a ThreadPool: the stop flag, the FIFO queue m_tasks
(front first) and the contents of the max-heap m_priorityTasks, as pairs
(priority, job id).  Jobs are identified by numbers. -/
structure ThreadPool where
  m_stop : Bool
  m_tasks : List Nat
  m_priorityTasks : List (Int × Nat)
deriving DecidableEq, Repr

namespace ThreadPool

/-- Top of std::priority_queue<PriorityTask>: a maximal element with respect
to PriorityTask::operator< (comparison of the priority field).  Among equal
priorities the C++ heap leaves the choice unspecified; the model keeps the
first maximal element. -/
def heapTop : List (Int × Nat) → Option (Int × Nat)
  | [] => none
  | x :: xs => some (xs.foldl (fun b y => if b.1 < y.1 then y else b) x)

/-- What one iteration of ThreadPool::workerLoop does once the condition
wait has returned (ThreadPool.hpp lines 199-239). -/
inductive WorkerStep where
  | exit
  | keepWaiting
  | runPriority (priority : Int) (job : Nat)
  | runFifo (job : Nat)
deriving DecidableEq, Repr

/-- One iteration of ThreadPool::workerLoop after the wait on m_condition
(predicate: m_stop or a queue is non-empty): exit if stopped with both
queues empty, otherwise take from m_priorityTasks first, and from m_tasks
only when the priority queue is empty. -/
def workerTakeJob (p : ThreadPool) : WorkerStep × ThreadPool :=
  if p.m_stop && p.m_tasks.isEmpty && p.m_priorityTasks.isEmpty then
    (WorkerStep.exit, p)
  else
    match heapTop p.m_priorityTasks with
    | some t =>
        (WorkerStep.runPriority t.1 t.2,
         { p with m_priorityTasks := p.m_priorityTasks.erase t })
    | none =>
        match p.m_tasks with
        | j :: rest => (WorkerStep.runFifo j, { p with m_tasks := rest })
        | [] => (WorkerStep.keepWaiting, p)

end ThreadPool

/-! ## Cache store (src/src/core/downloader/CacheManager.cpp) -/

/-- CacheEntry (CacheManager.hpp lines 22-29); lastAccess timestamps are
Nat ticks of std::chrono::system_clock. -/
structure CacheEntry where
  hash : String
  originalPath : String
  size : Nat
  compressed : Bool
  lastAccess : Nat
  accessCount : Nat
deriving DecidableEq, Repr

/-- The CacheManager state.  m_entries models the unordered_map as an
association list keyed by the hash field (iteration order of the map is the
list order); diskFiles models which bucketed cache files
(getCachePath(hash)) currently exist on disk. -/
structure CacheManager where
  m_entries : List CacheEntry
  m_currentSize : Nat
  m_maxSize : Nat
  m_initialized : Bool
  m_hitCount : Nat
  m_missCount : Nat
  diskFiles : List String
deriving DecidableEq, Repr

namespace CacheManager

/-- Sum of the size fields of a list of entries. -/
def sumSizes (es : List CacheEntry) : Nat := (es.map CacheEntry.size).sum

/-- m_entries.find(hash) on the association list. -/
def entriesFind (es : List CacheEntry) (h : String) : Option CacheEntry :=
  es.find? (fun e => e.hash == h)

/-- m_entries.erase(hash): drop the entry keyed by the hash. -/
def entriesErase (es : List CacheEntry) (h : String) : List CacheEntry :=
  es.filter (fun e => !(e.hash == h))

/-- m_entries[key] = entry: replace in place when the key is present,
insert otherwise. -/
def entriesStore (es : List CacheEntry) (e : CacheEntry) : List CacheEntry :=
  if (entriesFind es e.hash).isSome then
    es.map (fun x => if x.hash == e.hash then e else x)
  else es ++ [e]

/-- The comparison entry.lastAccess < oldest of CacheManager::getLRUEntry,
where the initial value of oldest, time_point::max(), is modelled by none
(timestamps in the model are unbounded, so no entry carries the sentinel
value). -/
def ltOldest (t : Nat) : Option Nat → Bool
  | none => true
  | some o => t < o

/-- The loop body of CacheManager::getLRUEntry (lines 314-326). -/
def lruStep (acc : String × Option Nat) (e : CacheEntry) : String × Option Nat :=
  if ltOldest e.lastAccess acc.2 then (e.hash, some e.lastAccess) else acc

/-- CacheManager::getLRUEntry (lines 314-326): hash of the entry with the
strictly smallest lastAccess seen while scanning m_entries; "" when the map
is empty. -/
def getLRUEntry (es : List CacheEntry) : String :=
  (es.foldl lruStep ("", (none : Option Nat))).1

/-- The while loop of CacheManager::evict (lines 299-312), with explicit
fuel.  Each iteration that proceeds removes one entry, so fuel equal to the
number of entries makes the recursion reach the same fixed point the C++
loop reaches.  The branch in which the hash returned by getLRUEntry is not
found in the map would loop forever in C++; it is unreachable (getLRUEntry
returns the hash of an entry of the map) and the model returns the state
unchanged there. -/
def evictLoop : Nat → Nat → CacheManager → CacheManager
  | 0, _, c => c
  | fuel + 1, requiredSpace, c =>
    if c.m_currentSize + requiredSpace > c.m_maxSize then
      if c.m_entries.isEmpty then c
      else
        let lru := getLRUEntry c.m_entries
        if lru == "" then c
        else
          match entriesFind c.m_entries lru with
          | some e =>
              evictLoop fuel requiredSpace
                { c with
                    m_entries := entriesErase c.m_entries lru,
                    m_currentSize := c.m_currentSize - e.size,
                    diskFiles := c.diskFiles.filter (fun h => !(h == lru)) }
          | none => c
    else c

/-- CacheManager::evict (lines 299-312). -/
def evict (requiredSpace : Nat) (c : CacheManager) : CacheManager :=
  evictLoop c.m_entries.length requiredSpace c

/-- CacheManager::add (lines 46-84).  srcOk models whether
create_directories / file_size on the source succeed (they throw before any
eviction happens otherwise); copyOk models whether copy_file succeeds (it
throws after the eviction already happened otherwise); now is the
system_clock timestamp; fileSize is file_size(filePath). -/
def add (srcOk copyOk : Bool) (now : Nat) (c : CacheManager)
    (filePath : String) (fileSize : Nat) (hash : String) : Bool × CacheManager :=
  if !c.m_initialized then (false, c)
  else if hash == "" then (false, c)
  else if !srcOk then (false, c)
  else
    let c1 := if c.m_currentSize + fileSize > c.m_maxSize then evict fileSize c else c
    if !copyOk then (false, c1)
    else
      let entry : CacheEntry :=
        { hash := hash, originalPath := filePath, size := fileSize,
          compressed := false, lastAccess := now, accessCount := 1 }
      (true,
       { c1 with
           m_entries := entriesStore c1.m_entries entry,
           m_currentSize := c1.m_currentSize + fileSize,
           diskFiles := if c1.diskFiles.contains hash then c1.diskFiles
                        else hash :: c1.diskFiles })

/-- CacheManager::has (lines 86-89). -/
def has (c : CacheManager) (hash : String) : Bool :=
  (entriesFind c.m_entries hash).isSome

/-- CacheManager::get (lines 91-112).  The returned string stands for
getCachePath(hash).string().  When the backing file no longer exists the
stale entry is erased without any adjustment of m_currentSize (line 102 of
the source performs only m_entries.erase(it)). -/
def get (now : Nat) (c : CacheManager) (hash : String) : Option String × CacheManager :=
  match entriesFind c.m_entries hash with
  | none => (none, { c with m_missCount := c.m_missCount + 1 })
  | some e =>
    if !(c.diskFiles.contains hash) then
      (none, { c with
                 m_entries := entriesErase c.m_entries hash,
                 m_missCount := c.m_missCount + 1 })
    else
      (some hash,
       { c with
           m_entries := entriesStore c.m_entries
             { e with lastAccess := now, accessCount := e.accessCount + 1 },
           m_hitCount := c.m_hitCount + 1 })

/-- CacheManager::copyTo (lines 114-128): get followed by a filesystem
copy; copyOk models whether copy_file to the destination succeeds. -/
def copyTo (copyOk : Bool) (now : Nat) (c : CacheManager)
    (hash destination : String) : Bool × CacheManager :=
  match get now c hash with
  | (none, c1) => (false, c1)
  | (some _, c1) => (copyOk, c1)

/-- CacheManager::remove (lines 130-143). -/
def remove (c : CacheManager) (hash : String) : Bool × CacheManager :=
  match entriesFind c.m_entries hash with
  | none => (false, c)
  | some e =>
    (true,
     { c with
         diskFiles := c.diskFiles.filter (fun h => !(h == hash)),
         m_currentSize := c.m_currentSize - e.size,
         m_entries := entriesErase c.m_entries hash })

/-- CacheManager::clear (lines 145-158). -/
def clear (c : CacheManager) : CacheManager :=
  { c with m_entries := [], m_currentSize := 0, m_hitCount := 0,
           m_missCount := 0, diskFiles := [] }

/-- CacheManager::setMaxSize (lines 160-167). -/
def setMaxSize (c : CacheManager) (maxSize : Nat) : CacheManager :=
  let c1 := { c with m_maxSize := maxSize }
  if c1.m_currentSize > c1.m_maxSize then evict (c1.m_currentSize - c1.m_maxSize) c1
  else c1

/-- The iterator loop of CacheManager::runMaintenance (lines 174-189):
walk the entries, dropping those whose backing file no longer exists and
subtracting their sizes from m_currentSize. -/
def runMaintenanceLoop (disk : List String) :
    List CacheEntry → Nat → List CacheEntry × Nat
  | [], size => ([], size)
  | e :: rest, size =>
    if disk.contains e.hash then
      let (es, s) := runMaintenanceLoop disk rest size
      (e :: es, s)
    else
      runMaintenanceLoop disk rest (size - e.size)

/-- CacheManager::runMaintenance (lines 174-189). -/
def runMaintenance (c : CacheManager) : CacheManager :=
  let (es, s) := runMaintenanceLoop c.diskFiles c.m_entries c.m_currentSize
  { c with m_entries := es, m_currentSize := s }

/-- Consistency of the size accounting: m_currentSize equals the sum of
the size fields of the entries currently in m_entries. -/
def Accounting (c : CacheManager) : Prop :=
  c.m_currentSize = sumSizes c.m_entries

instance (c : CacheManager) : Decidable (Accounting c) := by
  unfold Accounting; infer_instance

/-- Representation invariant of the entry map: keys are distinct (an
unordered_map cannot hold a key twice) and non-empty (add rejects an empty
hash). -/
def EntriesWF (es : List CacheEntry) : Prop :=
  (es.map CacheEntry.hash).Nodup ∧ ∀ e ∈ es, e.hash ≠ ""

instance (es : List CacheEntry) : Decidable (EntriesWF es) := by
  unfold EntriesWF; infer_instance

/-- The entry of the map with the strictly smallest lastAccess. -/
def IsStrictMin (e : CacheEntry) (es : List CacheEntry) : Prop :=
  e ∈ es ∧ ∀ x ∈ es, x ≠ e → e.lastAccess < x.lastAccess

instance (e : CacheEntry) (es : List CacheEntry) : Decidable (IsStrictMin e es) := by
  unfold IsStrictMin; infer_instance

end CacheManager

/-! ## Transfer executor (DownloadManager::executeDownload, lines 275-389) -/

/-- DownloadTask (src/src/core/downloader/DownloadTask.hpp).  The status
field, retryAttempts and userData are never read or written by
DownloadManager.cpp and are omitted.  The cancelled flag is an atomic Bool
copied by value by the DownloadTask copy constructor, which the model
reflects by plain immutable values. -/
structure DownloadTask where
  id : String
  url : String
  destination : String
  sha1 : String
  expectedSize : Nat
  error : String
  cancelled : Bool
deriving DecidableEq, Repr

/-- The environment-determined outcome of one transfer attempt of
DownloadManager::executeDownload (lines 294-384): what the filesystem and
the network did during this iteration of the retry loop. -/
inductive TransferOutcome where
  /-- create_directories threw; no network request was made and the catch
  block records the exception message. -/
  | dirFail (msg : String)
  /-- the output ofstream failed to open; no network request was made. -/
  | openFail
  /-- an exception was thrown once the transfer was under way (from
  cpr::Download, file_size, ...); the catch block records its message. -/
  | exn (msg : String)
  /-- cpr::Download returned, with the given HTTP status; hashOk tells
  whether verifyChecksum (lines 391-403) would succeed on the written
  file. -/
  | completed (status : Nat) (hashOk : Bool)
deriving DecidableEq, Repr

/-- The effect of one iteration of the retry loop: whether the iteration
returns true, whether cpr::Download was invoked, whether
std::filesystem::remove(task.destination) was called, and the value
assigned to task.error (none = the field is left untouched). -/
structure AttemptStep where
  ok : Bool
  net : Bool
  removed : Bool
  err : Option String
deriving DecidableEq, Repr

/-- One iteration of the retry loop of DownloadManager::executeDownload
(lines 294-384), for a task with the given declared sha1: transport errors
(status other than 200) and checksum mismatches both record an error,
delete the destination file and fall through to the next attempt. -/
def runAttempt (sha1 : String) : TransferOutcome → AttemptStep
  | TransferOutcome.dirFail msg => ⟨false, false, false, some msg⟩
  | TransferOutcome.openFail => ⟨false, false, false, some "Failed to open output file"⟩
  | TransferOutcome.exn msg => ⟨false, true, false, some msg⟩
  | TransferOutcome.completed status hashOk =>
    if status ≠ 200 then
      ⟨false, true, true, some ("HTTP " ++ toString status)⟩
    else if sha1 == "" then
      ⟨true, true, false, none⟩
    else if !hashOk then
      ⟨false, true, true, some "Checksum mismatch"⟩
    else
      ⟨true, true, false, none⟩

/-- Counters accumulated across the retry loop, plus the task.error
field. -/
structure ExecStats where
  attempts : Nat
  netCalls : Nat
  removals : Nat
  error : String
deriving DecidableEq, Repr

/-- Fold one attempt effect into the accumulated statistics. -/
def applyStep (s : ExecStats) (st : AttemptStep) : ExecStats :=
  { attempts := s.attempts + 1,
    netCalls := s.netCalls + (if st.net then 1 else 0),
    removals := s.removals + (if st.removed then 1 else 0),
    error := match st.err with | some m => m | none => s.error }

/-- The retry loop of DownloadManager::executeDownload: attempt is the loop
counter, the second argument is the number of iterations still allowed
(retryCount + 1 - attempt); the task.cancelled flag is checked at the top
of every iteration.  outcome gives the environment behaviour of each
attempt. -/
def execGo (sha1 : String) (cancelled : Bool) (outcome : Nat → TransferOutcome) :
    Nat → Nat → ExecStats → Bool × ExecStats
  | _, 0, s => (false, s)
  | attempt, rem + 1, s =>
    if cancelled then (false, s)
    else
      let step := runAttempt sha1 (outcome attempt)
      let s1 := applyStep s step
      if step.ok then (true, s1)
      else execGo sha1 cancelled outcome (attempt + 1) rem s1

/-- DownloadManager::executeDownload (lines 275-389): up to retryCount + 1
attempts (retryCount defaults to 3 from the downloads.retryCount
configuration key). -/
def executeDownload (sha1 : String) (cancelled : Bool)
    (outcome : Nat → TransferOutcome) (retryCount : Nat) : Bool × ExecStats :=
  execGo sha1 cancelled outcome 0 (retryCount + 1) ⟨0, 0, 0, ""⟩

/-- The what() strings of the exceptions thrown inside the attempt body are
non-empty (they are produced by std::filesystem and cpr as descriptive
null-terminated strings). -/
def WhatNonempty : TransferOutcome → Prop
  | TransferOutcome.dirFail msg => msg ≠ ""
  | TransferOutcome.exn msg => msg ≠ ""
  | _ => True

instance (o : TransferOutcome) : Decidable (WhatNonempty o) := by
  unfold WhatNonempty; cases o <;> infer_instance

/-! ## Download coordinator (src/src/core/downloader/DownloadManager.cpp) -/

/-- QueuedDownload (DownloadManager.hpp lines 57-66); the two callbacks are
represented by the event lists of the DownloadManager state. -/
structure QueuedDownload where
  task : DownloadTask
  priority : Int
deriving DecidableEq, Repr

/-- The DownloadManager state.  m_queue models the priority_queue of
QueuedDownload as a list in insertion order (only its emptiness and size
are observed by the claims); m_activeTasks and m_taskProgress model the
unordered_maps as association lists.  poolJobs records the closures handed
to m_threadPool->submit, each holding its own by-value copy of the
QueuedDownload; completions records the invocations of completion
callbacks (taskId, success, error); networkCalls counts cpr::Download
invocations (the stub transport counter of the spec).  The byte and speed
counters (m_totalBytes, m_downloadedBytes, m_currentSpeed) are not read by
any claim and are omitted. -/
structure DownloadManager where
  m_cache : CacheManager
  m_queue : List QueuedDownload
  m_activeTasks : List (String × QueuedDownload)
  m_taskProgress : List (String × Int)
  m_running : Bool
  m_paused : Bool
  m_totalTasks : Nat
  m_completedTasks : Nat
  m_nextTaskId : Nat
  poolJobs : List QueuedDownload
  completions : List (String × Bool × String)
  networkCalls : Nat
deriving DecidableEq, Repr

namespace DownloadManager

/-- m_taskProgress[key] = value on the association list. -/
def progressSet (m : List (String × Int)) (k : String) (v : Int) : List (String × Int) :=
  if m.any (fun p => p.1 == k) then m.map (fun p => if p.1 == k then (k, v) else p)
  else m ++ [(k, v)]

/-- m_activeTasks[key] = value on the association list. -/
def activeStore (m : List (String × QueuedDownload)) (k : String) (v : QueuedDownload) :
    List (String × QueuedDownload) :=
  if m.any (fun p => p.1 == k) then m.map (fun p => if p.1 == k then (k, v) else p)
  else m ++ [(k, v)]

/-- DownloadManager::generateTaskId (lines 405-407). -/
def generateTaskId (d : DownloadManager) : String × DownloadManager :=
  ("dl_" ++ toString (d.m_nextTaskId + 1), { d with m_nextTaskId := d.m_nextTaskId + 1 })

/-- The fall-through tail of DownloadManager::addDownload (lines 92-108):
record the task, bump the total counter and submit the processing closure
(carrying its own copy of the QueuedDownload) to the thread pool. -/
def addDownloadEnqueue (d : DownloadManager) (taskId : String)
    (queued : QueuedDownload) : String × DownloadManager :=
  (taskId,
   { d with
       m_queue := d.m_queue ++ [queued],
       m_taskProgress := progressSet d.m_taskProgress taskId 0,
       m_totalTasks := d.m_totalTasks + 1,
       poolJobs := d.poolJobs ++ [queued] })

/-- DownloadManager::addDownload (lines 64-109).  copyOk models whether the
filesystem copy performed by CacheManager::copyTo succeeds when it is
reached; now is the system_clock timestamp. -/
def addDownload (copyOk : Bool) (now : Nat) (d : DownloadManager)
    (task : DownloadTask) (priority : Int) : String × DownloadManager :=
  let (taskId, d0) := generateTaskId d
  let queued : QueuedDownload := { task := { task with id := taskId }, priority := priority }
  if !(task.sha1 == "") && CacheManager.has d0.m_cache task.sha1 then
    match CacheManager.copyTo copyOk now d0.m_cache task.sha1 task.destination with
    | (true, c1) =>
        (taskId, { d0 with
                     m_cache := c1,
                     completions := d0.completions ++ [(taskId, true, "")] })
    | (false, c1) => addDownloadEnqueue { d0 with m_cache := c1 } taskId queued
  else addDownloadEnqueue d0 taskId queued

/-- DownloadManager::cancelDownload (lines 127-138): only m_activeTasks is
consulted; when the id is found, the cancelled flag is set on the copy
stored in the map and the record is erased on the next line (the copy held
by the pool closure is untouched); when the id is not found (in particular
for every queued-but-not-started task) nothing happens and false is
returned. -/
def cancelDownload (d : DownloadManager) (taskId : String) : Bool × DownloadManager :=
  match d.m_activeTasks.find? (fun p => p.1 == taskId) with
  | some _ =>
      (true, { d with m_activeTasks := d.m_activeTasks.filter (fun p => !(p.1 == taskId)) })
  | none => (false, d)

/-- DownloadManager::cancelAll (lines 140-158): flags the copies stored in
m_activeTasks (immediately cleared), clears the queue and resets the
aggregate counters.  The copies held by pool closures are untouched. -/
def cancelAll (d : DownloadManager) : DownloadManager :=
  { d with m_activeTasks := [], m_queue := [],
           m_totalTasks := 0, m_completedTasks := 0 }

/-- The predicate DownloadManager::waitForAll (lines 171-176) waits on:
the call returns exactly when it evaluates to true. -/
def waitForAllPred (d : DownloadManager) : Bool :=
  d.m_queue.isEmpty && d.m_activeTasks.isEmpty

/-- DownloadManager::processDownload (lines 227-273), run by a worker on
the by-value copy of the QueuedDownload captured by the submitted closure.
The pause sleep-poll loop (lines 233-235) only delays execution and is not
modelled (all runs considered here have m_paused = false).  outcome,
retryCount, now and dlSize (file_size of the downloaded file) parameterise
the executeDownload call and the cache registration it performs. -/
def processDownload (outcome : Nat → TransferOutcome) (retryCount : Nat)
    (now dlSize : Nat) (d : DownloadManager) (queued : QueuedDownload) : DownloadManager :=
  if !d.m_running || queued.task.cancelled then d
  else
    let dA := { d with m_activeTasks := activeStore d.m_activeTasks queued.task.id queued }
    let r := executeDownload queued.task.sha1 queued.task.cancelled outcome retryCount
    let success := r.1
    let cache1 :=
      if success && !(queued.task.sha1 == "") then
        (CacheManager.add true true now dA.m_cache queued.task.destination dlSize
          queued.task.sha1).2
      else dA.m_cache
    { dA with
        m_cache := cache1,
        m_activeTasks := dA.m_activeTasks.filter (fun p => !(p.1 == queued.task.id)),
        m_taskProgress := progressSet dA.m_taskProgress queued.task.id
          (if success then 1 else -1),
        m_completedTasks := dA.m_completedTasks + 1,
        completions := dA.completions ++
          [(queued.task.id, success, if success then "" else r.2.error)],
        networkCalls := dA.networkCalls + r.2.netCalls }

/-- The state right after DownloadManager::initialize (lines 27-48), with
the given cache state. -/
def initialState (cache : CacheManager) : DownloadManager :=
  { m_cache := cache, m_queue := [], m_activeTasks := [], m_taskProgress := [],
    m_running := true, m_paused := false, m_totalTasks := 0, m_completedTasks := 0,
    m_nextTaskId := 0, poolJobs := [], completions := [], networkCalls := 0 }

end DownloadManager

/-! ## Concrete states used by the scenario theorems -/

/-- A freshly initialized cache with the default 2 GiB bound. -/
def emptyCache : CacheManager :=
  { m_entries := [], m_currentSize := 0, m_maxSize := 2 * 1024 * 1024 * 1024,
    m_initialized := true, m_hitCount := 0, m_missCount := 0, diskFiles := [] }

/-- A plain task with no declared hash. -/
def sampleTask : DownloadTask :=
  { id := "", url := "http://example/f", destination := "f", sha1 := "",
    expectedSize := 0, error := "", cancelled := false }

/-- C1 scenario: one task submitted to a fresh coordinator. -/
def c1_add : String × DownloadManager :=
  DownloadManager.addDownload true 0 (DownloadManager.initialState emptyCache) sampleTask 0

/-- C1 scenario: cancelDownload called with the returned id before any
worker has started the task. -/
def c1_cancel : Bool × DownloadManager :=
  DownloadManager.cancelDownload c1_add.2 c1_add.1

/-- The by-value copy of the queued download captured by the pool closure
in the C1 scenario. -/
def c1_job : QueuedDownload :=
  { task := { sampleTask with id := "dl_1" }, priority := 0 }

/-- C1 scenario: the worker then runs the submitted closure; the transport
responds with status 200. -/
def c1_final : DownloadManager :=
  DownloadManager.processDownload (fun _ => TransferOutcome.completed 200 true) 3 0 0
    c1_cancel.2 c1_job

/-- C1 scenario variant: cancelAll instead of cancelDownload, before any
worker has started the task. -/
def c1_allCancel : DownloadManager := DownloadManager.cancelAll c1_add.2

/-- C1 scenario variant: the worker then runs the pool closure anyway
(m_running is still true and the closure holds its own task copy). -/
def c1_allFinal : DownloadManager :=
  DownloadManager.processDownload (fun _ => TransferOutcome.completed 200 true) 3 0 0
    c1_allCancel c1_job

/-- C2 scenario: one task submitted to a fresh coordinator. -/
def c2_add : String × DownloadManager :=
  DownloadManager.addDownload true 0 (DownloadManager.initialState emptyCache) sampleTask 0

/-- The by-value copy of the queued download captured by the pool closure
in the C2 scenario. -/
def c2_job : QueuedDownload :=
  { task := { sampleTask with id := "dl_1" }, priority := 0 }

/-- C2 scenario: the single task runs to successful completion. -/
def c2_final : DownloadManager :=
  DownloadManager.processDownload (fun _ => TransferOutcome.completed 200 true) 3 0 0
    c2_add.2 c2_job

/-- C3 counterexample store: initialized, empty, maxSize 10. -/
def c3_store : CacheManager :=
  { m_entries := [], m_currentSize := 0, m_maxSize := 10,
    m_initialized := true, m_hitCount := 0, m_missCount := 0, diskFiles := [] }

/-- C3 witness entry. -/
def c3w_entry : CacheEntry :=
  { hash := "aabb", originalPath := "p", size := 6, compressed := false,
    lastAccess := 1, accessCount := 1 }

/-- C3 witness store: one 6-byte entry in a 10-byte store. -/
def c3w_store : CacheManager :=
  { m_entries := [c3w_entry], m_currentSize := 6, m_maxSize := 10,
    m_initialized := true, m_hitCount := 0, m_missCount := 0, diskFiles := ["aabb"] }

/-- C4 failing input: a store holding one 5-byte entry whose backing file
was removed externally (diskFiles does not contain its hash). -/
def c4_stale : CacheManager :=
  { m_entries := [{ hash := "aabbcc", originalPath := "p", size := 5, compressed := false,
                    lastAccess := 7, accessCount := 1 }],
    m_currentSize := 5, m_maxSize := 100,
    m_initialized := true, m_hitCount := 0, m_missCount := 0, diskFiles := [] }

/-- C4 failing input: a store about to receive add() for a hash that is
already present in the index. -/
def c4_dup : CacheManager :=
  { m_entries := [{ hash := "ddee", originalPath := "p", size := 5, compressed := false,
                    lastAccess := 1, accessCount := 1 }],
    m_currentSize := 5, m_maxSize := 100,
    m_initialized := true, m_hitCount := 0, m_missCount := 0, diskFiles := ["ddee"] }

/-- C6 counterexample cache: the hash is present in the index but its
backing file is gone, so copyTo fails. -/
def c6_cache : CacheManager :=
  { m_entries := [{ hash := "aabbcc", originalPath := "p", size := 5, compressed := false,
                    lastAccess := 3, accessCount := 1 }],
    m_currentSize := 5, m_maxSize := 100,
    m_initialized := true, m_hitCount := 0, m_missCount := 0, diskFiles := [] }

/-- C6 task declaring the cached hash. -/
def c6_task : DownloadTask :=
  { id := "", url := "http://example/g", destination := "g", sha1 := "aabbcc",
    expectedSize := 0, error := "", cancelled := false }

/-- C6 witness cache: same entry, but the backing file exists. -/
def c6_hit_cache : CacheManager := { c6_cache with diskFiles := ["aabbcc"] }

/-- C7 witness entry A (older lastAccess). -/
def c7w_a : CacheEntry :=
  { hash := "aa", originalPath := "p", size := 4, compressed := false,
    lastAccess := 1, accessCount := 1 }

/-- C7 witness entry B (newer lastAccess). -/
def c7w_b : CacheEntry :=
  { hash := "bb", originalPath := "q", size := 4, compressed := false,
    lastAccess := 2, accessCount := 1 }

/-- C7 witness store: A and B fill the store exactly; inserting 4 more
bytes forces the eviction of exactly one entry. -/
def c7w_store : CacheManager :=
  { m_entries := [c7w_a, c7w_b], m_currentSize := 8, m_maxSize := 8,
    m_initialized := true, m_hitCount := 0, m_missCount := 0, diskFiles := ["aa", "bb"] }

/-- C9 witness pool: one FIFO job and one priority job pending. -/
def c9w_pool : ThreadPool :=
  { m_stop := false, m_tasks := [7], m_priorityTasks := [(5, 1)] }

/-! ## Helper lemmas about the worker pool -/

/-- The max-selection fold of heapTop returns its accumulator or a list
element. -/
theorem heapFold_acc_or_mem (xs : List (Int × Nat)) :
    ∀ b : Int × Nat,
      xs.foldl (fun b y => if b.1 < y.1 then y else b) b = b ∨
      xs.foldl (fun b y => if b.1 < y.1 then y else b) b ∈ xs := by
  induction xs with
  | nil => intro b; exact Or.inl rfl
  | cons y ys ih =>
    intro b
    rw [List.foldl_cons]
    rcases ih (if b.1 < y.1 then y else b) with h | h
    · rw [h]
      by_cases hc : b.1 < y.1
      · exact Or.inr (by simp [hc])
      · exact Or.inl (by simp [hc])
    · exact Or.inr (List.mem_cons_of_mem _ h)

/-- heapTop returns an element of the heap. -/
theorem heapTop_mem {h : List (Int × Nat)} {t : Int × Nat}
    (ht : ThreadPool.heapTop h = some t) : t ∈ h := by
  cases h with
  | nil => exact absurd ht (by simp [ThreadPool.heapTop])
  | cons x xs =>
    rw [ThreadPool.heapTop] at ht
    have heq := Option.some.inj ht
    rcases heapFold_acc_or_mem xs x with h1 | h1
    · rw [h1] at heq; exact heq ▸ List.mem_cons_self _ _
    · exact heq ▸ List.mem_cons_of_mem _ h1

/-! ## Claim C9 -/

/-- Claim C9 (confirmed): whenever a worker thread takes a job from the
pool, it takes it from the priority queue if that queue is non-empty (the
FIFO queue m_tasks is left untouched by such a take), and a FIFO-queue job
is taken only when the priority queue is empty; hence every priority-queue
item is drained ahead of any FIFO item. -/
theorem worker_prefers_priority_queue (p : ThreadPool) :
    (p.m_priorityTasks ≠ [] →
      ∃ t, ThreadPool.heapTop p.m_priorityTasks = some t ∧ t ∈ p.m_priorityTasks ∧
        (ThreadPool.workerTakeJob p).1 = ThreadPool.WorkerStep.runPriority t.1 t.2 ∧
        (ThreadPool.workerTakeJob p).2.m_tasks = p.m_tasks) ∧
    (∀ j, (ThreadPool.workerTakeJob p).1 = ThreadPool.WorkerStep.runFifo j →
      p.m_priorityTasks = []) := by
  constructor
  · intro hne
    rcases hq : p.m_priorityTasks with _ | ⟨x, xs⟩
    · exact absurd hq hne
    · have htop : ThreadPool.heapTop (x :: xs) =
          some (xs.foldl (fun b y => if b.1 < y.1 then y else b) x) := by
        rw [ThreadPool.heapTop]
      refine ⟨_, htop, heapTop_mem htop, ?_, ?_⟩ <;>
        simp [ThreadPool.workerTakeJob, hq, htop]
  · intro j hj
    rcases hq : p.m_priorityTasks with _ | ⟨x, xs⟩
    · rfl
    · exfalso
      rw [ThreadPool.workerTakeJob, hq] at hj
      simp [ThreadPool.heapTop] at hj

/-- Witness for C9: with a non-empty priority queue and a pending FIFO job,
the worker takes the priority job. -/
theorem worker_prefers_priority_queue_witness :
    c9w_pool.m_priorityTasks ≠ [] ∧
    (∃ t, ThreadPool.heapTop c9w_pool.m_priorityTasks = some t ∧
      t ∈ c9w_pool.m_priorityTasks ∧
      (ThreadPool.workerTakeJob c9w_pool).1 = ThreadPool.WorkerStep.runPriority t.1 t.2 ∧
      (ThreadPool.workerTakeJob c9w_pool).2.m_tasks = c9w_pool.m_tasks) :=
  ⟨by decide, (worker_prefers_priority_queue c9w_pool).1 (by decide)⟩

/-! ## Claim C10 -/

/-- Claim C10 counterexample: with hardware parallelism 2 and numThreads 0,
the constructor creates 2 worker threads, fewer than 4 — refuting the
claim that the count is never fewer than 4. -/
theorem threadPool_two_cores_give_two_threads :
    threadPoolWorkerCount 0 2 = 2 ∧ threadPoolWorkerCount 0 2 < 4 := by decide

/-- Claim C10 amended (proved): with numThreads = 0 the number of worker
threads equals the hardware parallelism whenever that value is non-zero;
the fallback 4 is used exactly when hardware parallelism is reported as 0,
and the pool never ends up with 0 threads. -/
theorem threadPool_default_thread_count (hardwareConcurrency : Nat) :
    (hardwareConcurrency ≠ 0 →
      threadPoolWorkerCount 0 hardwareConcurrency = hardwareConcurrency) ∧
    threadPoolWorkerCount 0 0 = 4 ∧
    0 < threadPoolWorkerCount 0 hardwareConcurrency := by
  refine ⟨fun h => ?_, by decide, ?_⟩ <;>
    · unfold threadPoolWorkerCount
      split_ifs <;> simp_all <;> omega

/-- Witness for the amended C10 theorem at hardware parallelism 2. -/
theorem threadPool_default_thread_count_witness :
    ((2 : Nat) ≠ 0 ∧ threadPoolWorkerCount 0 2 = 2) ∧ 0 < threadPoolWorkerCount 0 2 :=
  ⟨⟨by decide, (threadPool_default_thread_count 2).1 (by decide)⟩,
   (threadPool_default_thread_count 2).2.2⟩

/-! ## Helper lemmas about the transfer executor -/

/-- A failing attempt always assigns task.error. -/
theorem runAttempt_fail_err (sha1 : String) (o : TransferOutcome)
    (h : (runAttempt sha1 o).ok = false) : ∃ m, (runAttempt sha1 o).err = some m := by
  cases o with
  | dirFail m => exact ⟨m, rfl⟩
  | openFail => exact ⟨_, rfl⟩
  | exn m => exact ⟨m, rfl⟩
  | completed status hashOk =>
    by_cases h1 : status ≠ 200
    · exact ⟨"HTTP " ++ toString status, by simp [runAttempt, h1]⟩
    · by_cases h2 : sha1 = ""
      · exfalso; simp [runAttempt, h1, h2] at h
      · by_cases h3 : hashOk
        · exfalso; simp [runAttempt, h1, h2, h3] at h
        · exact ⟨"Checksum mismatch", by simp [runAttempt, h1, h2, h3]⟩

/-- The error assigned by a failing attempt is non-empty, given that the
what() strings of thrown exceptions are non-empty. -/
theorem runAttempt_fail_err_ne (sha1 : String) (o : TransferOutcome) (m : String)
    (hw : WhatNonempty o) (hm : (runAttempt sha1 o).err = some m) : m ≠ "" := by
  have hhttp : ∀ s : Nat, ("HTTP " ++ toString s) ≠ "" := by
    intro s he
    have hlen := congrArg String.length he
    rw [String.length_append] at hlen
    have h5 : ("HTTP " : String).length = 5 := rfl
    have h0 : ("" : String).length = 0 := rfl
    omega
  cases o with
  | dirFail msg => cases Option.some.inj hm; exact hw
  | openFail => cases Option.some.inj hm; decide
  | exn msg => cases Option.some.inj hm; exact hw
  | completed status hashOk =>
    by_cases h1 : status ≠ 200
    · simp only [runAttempt, if_pos h1] at hm
      cases Option.some.inj hm; exact hhttp status
    · by_cases h2 : sha1 = ""
      · exfalso; simp [runAttempt, h1, h2] at hm
      · by_cases h3 : hashOk
        · exfalso; simp [runAttempt, h1, h2, h3] at hm
        · have : m = "Checksum mismatch" := by
            simp [runAttempt, h1, h2, h3] at hm
            exact hm.symm
          rw [this]; decide

/-- When every remaining attempt fails, the retry loop returns false and
performs exactly the remaining number of attempts. -/
theorem execGo_allFail (sha1 : String) (outcome : Nat → TransferOutcome) :
    ∀ (n attempt : Nat) (s : ExecStats),
      (∀ i, i < n → (runAttempt sha1 (outcome (attempt + i))).ok = false) →
      (execGo sha1 false outcome attempt n s).1 = false ∧
      (execGo sha1 false outcome attempt n s).2.attempts = s.attempts + n := by
  intro n
  induction n with
  | zero => intro attempt s _; exact ⟨rfl, rfl⟩
  | succ n ih =>
    intro attempt s hf
    have h0 : (runAttempt sha1 (outcome attempt)).ok = false := by
      simpa using hf 0 (Nat.succ_pos n)
    rw [execGo]
    simp only [Bool.false_eq_true, if_false, h0]
    have hrec := ih (attempt + 1) (applyStep s (runAttempt sha1 (outcome attempt)))
      (fun i hi => by
        have := hf (i + 1) (Nat.succ_lt_succ hi)
        simpa [Nat.add_assoc, Nat.add_comm 1 i] using this)
    refine ⟨hrec.1, ?_⟩
    rw [hrec.2]
    simp only [applyStep]
    omega

/-- The error recorded after running the loop over n + 1 attempts that all
fail is the error of the last attempt. -/
theorem execGo_allFail_error (sha1 : String) (outcome : Nat → TransferOutcome) :
    ∀ (n attempt : Nat) (s : ExecStats) (m : String),
      (∀ i, i < n → (runAttempt sha1 (outcome (attempt + i))).ok = false) →
      (runAttempt sha1 (outcome (attempt + n))).err = some m →
      (execGo sha1 false outcome attempt (n + 1) s).2.error = m := by
  intro n
  induction n with
  | zero =>
    intro attempt s m _ hm
    simp only [Nat.add_zero] at hm
    rw [execGo]
    simp only [Bool.false_eq_true, if_false]
    rcases hok : (runAttempt sha1 (outcome attempt)).ok with _ | _ <;>
      simp [execGo, hok, applyStep, hm]
  | succ n ih =>
    intro attempt s m hf hm
    have h0 : (runAttempt sha1 (outcome attempt)).ok = false := by
      simpa using hf 0 (Nat.succ_pos n)
    rw [execGo]
    simp only [Bool.false_eq_true, if_false, h0]
    exact ih (attempt + 1) _ m
      (fun i hi => by
        have := hf (i + 1) (Nat.succ_lt_succ hi)
        simpa [Nat.add_assoc, Nat.add_comm 1 i] using this)
      (by
        have : attempt + 1 + n = attempt + (n + 1) := by omega
        rw [this]; exact hm)

/-- Counter totals of the loop over a constant failing outcome. -/
theorem execGo_const_fail (sha1 : String) (o : TransferOutcome)
    (hfail : (runAttempt sha1 o).ok = false) :
    ∀ (n attempt : Nat) (s : ExecStats),
      (execGo sha1 false (fun _ => o) attempt n s).2.netCalls =
        s.netCalls + n * (if (runAttempt sha1 o).net then 1 else 0) ∧
      (execGo sha1 false (fun _ => o) attempt n s).2.removals =
        s.removals + n * (if (runAttempt sha1 o).removed then 1 else 0) := by
  intro n
  induction n with
  | zero => intro attempt s; simp [execGo]
  | succ n ih =>
    intro attempt s
    rw [execGo]
    simp only [Bool.false_eq_true, if_false, hfail]
    have hrec := ih (attempt + 1) (applyStep s (runAttempt sha1 o))
    refine ⟨?_, ?_⟩
    · rw [hrec.1]; simp only [applyStep]; ring
    · rw [hrec.2]; simp only [applyStep]; ring

/-! ## Claim C5 -/

/-- Claim C5 (confirmed): a task that is never cancelled and whose every
transfer attempt fails receives exactly retryCount + 1 attempts from
executeDownload; the loop then returns false with task.error holding the
(non-empty) error recorded by the last attempt. -/
theorem executeDownload_all_fail (sha1 : String) (outcome : Nat → TransferOutcome)
    (retryCount : Nat)
    (hfail : ∀ i, i ≤ retryCount → (runAttempt sha1 (outcome i)).ok = false)
    (hwhat : WhatNonempty (outcome retryCount)) :
    (executeDownload sha1 false outcome retryCount).1 = false ∧
    (executeDownload sha1 false outcome retryCount).2.attempts = retryCount + 1 ∧
    (runAttempt sha1 (outcome retryCount)).err =
      some (executeDownload sha1 false outcome retryCount).2.error ∧
    (executeDownload sha1 false outcome retryCount).2.error ≠ "" := by
  have hf : ∀ i, i < retryCount + 1 → (runAttempt sha1 (outcome (0 + i))).ok = false := by
    intro i hi
    simpa using hfail i (Nat.lt_succ_iff.mp hi)
  have hf0 : ∀ i, i < retryCount → (runAttempt sha1 (outcome (0 + i))).ok = false := by
    intro i hi; exact hf i (Nat.lt_succ_of_lt hi)
  obtain ⟨m, hm⟩ := runAttempt_fail_err sha1 (outcome retryCount) (hfail retryCount le_rfl)
  have hmain := execGo_allFail sha1 outcome (retryCount + 1) 0 ⟨0, 0, 0, ""⟩ hf
  have herr := execGo_allFail_error sha1 outcome retryCount 0 ⟨0, 0, 0, ""⟩ m hf0
    (by simpa using hm)
  refine ⟨hmain.1, by simpa using hmain.2, ?_, ?_⟩
  · rw [executeDownload, herr]; exact hm
  · rw [executeDownload, herr]
    exact runAttempt_fail_err_ne sha1 (outcome retryCount) m hwhat hm

/-- Witness for C5: with retryCount 3 and a transport that always answers
404, the task gets exactly 4 attempts and the preserved error. -/
theorem executeDownload_all_fail_witness :
    (∀ i, i ≤ 3 →
      (runAttempt "ab" ((fun _ => TransferOutcome.completed 404 true) i)).ok = false) ∧
    (executeDownload "ab" false (fun _ => TransferOutcome.completed 404 true) 3).1 = false ∧
    (executeDownload "ab" false (fun _ => TransferOutcome.completed 404 true) 3).2.attempts = 4 :=
  ⟨by decide,
   (executeDownload_all_fail "ab" (fun _ => TransferOutcome.completed 404 true) 3
      (by decide) (by decide)).1,
   (executeDownload_all_fail "ab" (fun _ => TransferOutcome.completed 404 true) 3
      (by decide) (by decide)).2.1⟩

/-! ## Claim C8 -/

/-- Claim C8 (confirmed): a hash mismatch detected after a completed
transfer is handled identically to a transport failure (non-success
status): the single-attempt effects agree on success, on issuing a network
request and on deleting the destination file (both delete it), and running
the whole retry loop against an always-mismatching transfer gives the same
result, attempt count, network-call count and file-removal count as
running it against an always-failing transport. -/
theorem hash_mismatch_like_transport (sha1 : String) (status : Nat) (hashOk : Bool)
    (retryCount : Nat) (hs : sha1 ≠ "") (hc : status ≠ 200) :
    (runAttempt sha1 (TransferOutcome.completed 200 false)).ok
        = (runAttempt sha1 (TransferOutcome.completed status hashOk)).ok ∧
    (runAttempt sha1 (TransferOutcome.completed 200 false)).net
        = (runAttempt sha1 (TransferOutcome.completed status hashOk)).net ∧
    (runAttempt sha1 (TransferOutcome.completed 200 false)).removed = true ∧
    (runAttempt sha1 (TransferOutcome.completed status hashOk)).removed = true ∧
    (executeDownload sha1 false (fun _ => TransferOutcome.completed 200 false) retryCount).1
        = (executeDownload sha1 false
            (fun _ => TransferOutcome.completed status hashOk) retryCount).1 ∧
    (executeDownload sha1 false
        (fun _ => TransferOutcome.completed 200 false) retryCount).2.attempts
        = (executeDownload sha1 false
            (fun _ => TransferOutcome.completed status hashOk) retryCount).2.attempts ∧
    (executeDownload sha1 false
        (fun _ => TransferOutcome.completed 200 false) retryCount).2.netCalls
        = (executeDownload sha1 false
            (fun _ => TransferOutcome.completed status hashOk) retryCount).2.netCalls ∧
    (executeDownload sha1 false
        (fun _ => TransferOutcome.completed 200 false) retryCount).2.removals
        = (executeDownload sha1 false
            (fun _ => TransferOutcome.completed status hashOk) retryCount).2.removals := by
  have hsb : (sha1 == "") = false := by
    simpa using hs
  have hmis : runAttempt sha1 (TransferOutcome.completed 200 false) =
      ⟨false, true, true, some "Checksum mismatch"⟩ := by
    simp [runAttempt, hsb]
  have htra : runAttempt sha1 (TransferOutcome.completed status hashOk) =
      ⟨false, true, true, some ("HTTP " ++ toString status)⟩ := by
    simp [runAttempt, hc]
  have hm1 := execGo_allFail sha1 (fun _ => TransferOutcome.completed 200 false)
    (retryCount + 1) 0 ⟨0, 0, 0, ""⟩ (fun i _ => by rw [hmis])
  have ht1 := execGo_allFail sha1 (fun _ => TransferOutcome.completed status hashOk)
    (retryCount + 1) 0 ⟨0, 0, 0, ""⟩ (fun i _ => by rw [htra])
  have hm2 := execGo_const_fail sha1 (TransferOutcome.completed 200 false)
    (by rw [hmis]) (retryCount + 1) 0 ⟨0, 0, 0, ""⟩
  have ht2 := execGo_const_fail sha1 (TransferOutcome.completed status hashOk)
    (by rw [htra]) (retryCount + 1) 0 ⟨0, 0, 0, ""⟩
  refine ⟨by rw [hmis, htra], by rw [hmis, htra], by rw [hmis], by rw [htra],
    ?_, ?_, ?_, ?_⟩
  · rw [executeDownload, executeDownload, hm1.1, ht1.1]
  · rw [executeDownload, executeDownload, hm1.2, ht1.2]
  · rw [executeDownload, executeDownload, hm2.1, ht2.1, hmis, htra]
  · rw [executeDownload, executeDownload, hm2.2, ht2.2, hmis, htra]

/-- Witness for C8 at sha1 "ab", transport status 404, retryCount 3. -/
theorem hash_mismatch_like_transport_witness :
    ("ab" : String) ≠ "" ∧ (404 : Nat) ≠ 200 ∧
    (executeDownload "ab" false (fun _ => TransferOutcome.completed 200 false) 3).2.removals
      = (executeDownload "ab" false (fun _ => TransferOutcome.completed 404 true) 3).2.removals :=
  ⟨by decide, by decide,
   (hash_mismatch_like_transport "ab" 404 true 3 (by decide) (by decide)).2.2.2.2.2.2.2⟩

/-! ## Helper lemmas about the cache store -/

namespace CacheManager

theorem sumSizes_cons (e : CacheEntry) (l : List CacheEntry) :
    sumSizes (e :: l) = e.size + sumSizes l := by
  simp [sumSizes]

theorem find_mem {es : List CacheEntry} {h : String} {e : CacheEntry}
    (hf : entriesFind es h = some e) : e ∈ es ∧ e.hash = h := by
  unfold entriesFind at hf
  refine ⟨List.mem_of_find?_eq_some hf, ?_⟩
  have := List.find?_some hf
  simpa using this

theorem mem_find {es : List CacheEntry} {e : CacheEntry} (he : e ∈ es) :
    ∃ x, entriesFind es e.hash = some x := by
  unfold entriesFind
  rcases hq : es.find? (fun x => x.hash == e.hash) with _ | x
  · exfalso
    have := List.find?_eq_none.mp hq e he
    simp at this
  · exact ⟨x, hq⟩

theorem erase_of_find {es : List CacheEntry} {h : String} {e : CacheEntry}
    (hnd : (es.map CacheEntry.hash).Nodup) (hf : entriesFind es h = some e) :
    sumSizes (entriesErase es h) + e.size = sumSizes es ∧
    (entriesErase es h).length + 1 = es.length := by
  induction es with
  | nil => simp [entriesFind] at hf
  | cons x rest ih =>
    rw [List.map_cons, List.nodup_cons] at hnd
    by_cases hx : x.hash = h
    · have hbx : (x.hash == h) = true := by simp [hx]
      have hex : e = x := by
        unfold entriesFind at hf
        simp only [List.find?, hbx] at hf
        exact (Option.some.inj hf).symm
      have her : entriesErase (x :: rest) h = rest := by
        unfold entriesErase
        rw [List.filter_cons]
        simp only [hbx, Bool.not_true, Bool.false_eq_true, if_false]
        rw [List.filter_eq_self]
        intro y hy
        have hyh : y.hash ≠ h := by
          intro hcon
          exact hnd.1 (List.mem_map.mpr ⟨y, hy, by rw [hcon, hx]⟩)
        simp [hyh]
      rw [her, hex]
      constructor
      · rw [sumSizes_cons]; omega
      · simp
    · have hbx : (x.hash == h) = false := by simp [hx]
      have hfr : entriesFind rest h = some e := by
        unfold entriesFind at hf ⊢
        simp only [List.find?, hbx] at hf
        exact hf
      have her : entriesErase (x :: rest) h = x :: entriesErase rest h := by
        unfold entriesErase
        rw [List.filter_cons]
        simp [hbx]
      have hih := ih hnd.2 hfr
      rw [her, sumSizes_cons, sumSizes_cons]
      constructor
      · omega
      · simp only [List.length_cons]
        omega

theorem erase_wf {es : List CacheEntry} {h : String} (hwf : EntriesWF es) :
    EntriesWF (entriesErase es h) := by
  have hsub : List.Sublist (entriesErase es h) es := List.filter_sublist _
  constructor
  · exact hwf.1.sublist (hsub.map CacheEntry.hash)
  · intro e he
    exact hwf.2 e (hsub.subset he)

theorem lruFold_cases :
    ∀ (es : List CacheEntry) (acc : String × Option Nat),
      es.foldl lruStep acc = acc ∨
      ∃ e ∈ es, es.foldl lruStep acc = (e.hash, some e.lastAccess) := by
  intro es
  induction es with
  | nil => intro acc; exact Or.inl rfl
  | cons x rest ih =>
    intro acc
    rw [List.foldl_cons]
    rcases ih (lruStep acc x) with hcase | ⟨e, he, hcase⟩
    · rw [hcase]
      unfold lruStep
      by_cases hlt : ltOldest x.lastAccess acc.2 = true
      · rw [if_pos hlt]
        exact Or.inr ⟨x, List.mem_cons_self _ _, rfl⟩
      · rw [if_neg hlt]
        exact Or.inl rfl
    · exact Or.inr ⟨e, List.mem_cons_of_mem _ he, hcase⟩

theorem getLRU_exists {es : List CacheEntry} (hne : es ≠ []) :
    ∃ e ∈ es, getLRUEntry es = e.hash := by
  cases es with
  | nil => exact absurd rfl hne
  | cons x rest =>
    unfold getLRUEntry
    rw [List.foldl_cons]
    have hstep : lruStep ("", (none : Option Nat)) x = (x.hash, some x.lastAccess) := by
      simp [lruStep, ltOldest]
    rw [hstep]
    rcases lruFold_cases rest (x.hash, some x.lastAccess) with hcase | ⟨e, he, hcase⟩
    · exact ⟨x, List.mem_cons_self _ _, by rw [hcase]⟩
    · exact ⟨e, List.mem_cons_of_mem _ he, by rw [hcase]⟩

theorem lruFold_stable :
    ∀ (es : List CacheEntry) (acc : String × Option Nat),
      (∀ x ∈ es, ltOldest x.lastAccess acc.2 = false) →
      es.foldl lruStep acc = acc := by
  intro es
  induction es with
  | nil => intro acc _; rfl
  | cons x rest ih =>
    intro acc hall
    rw [List.foldl_cons]
    have hx : ltOldest x.lastAccess acc.2 = false := hall x (List.mem_cons_self _ _)
    have hs : lruStep acc x = acc := by simp [lruStep, hx]
    rw [hs]
    exact ih acc (fun y hy => hall y (List.mem_cons_of_mem _ hy))

theorem lruFold_min :
    ∀ (es : List CacheEntry) (acc : String × Option Nat) (e : CacheEntry),
      IsStrictMin e es → (∀ o, acc.2 = some o → e.lastAccess < o) →
      es.foldl lruStep acc = (e.hash, some e.lastAccess) := by
  intro es
  induction es with
  | nil =>
    intro acc e hmin _
    exact absurd hmin.1 (List.not_mem_nil e)
  | cons x rest ih =>
    intro acc e hmin hacc
    rw [List.foldl_cons]
    by_cases hq : x = e
    · subst hq
      have hlt : ltOldest x.lastAccess acc.2 = true := by
        cases ho : acc.2 with
        | none => simp [ltOldest]
        | some o =>
          simp only [ltOldest, decide_eq_true_eq]
          exact hacc o ho
      have hs : lruStep acc x = (x.hash, some x.lastAccess) := by
        simp [lruStep, hlt]
      rw [hs]
      apply lruFold_stable
      intro y hy
      by_cases hye : y = x
      · subst hye; simp [ltOldest]
      · have := hmin.2 y (List.mem_cons_of_mem _ hy) hye
        simp only [ltOldest, decide_eq_false_iff_not]
        omega
    · have hemem : e ∈ rest := by
        rcases List.mem_cons.mp hmin.1 with hcase | hcase
        · exact absurd hcase.symm hq
        · exact hcase
      have hminr : IsStrictMin e rest :=
        ⟨hemem, fun y hy hne2 => hmin.2 y (List.mem_cons_of_mem _ hy) hne2⟩
      apply ih _ e hminr
      intro o ho
      unfold lruStep at ho
      by_cases hlt : ltOldest x.lastAccess acc.2 = true
      · rw [if_pos hlt] at ho
        have hox : o = x.lastAccess := (Option.some.inj ho).symm
        rw [hox]
        exact hmin.2 x (List.mem_cons_self _ _) hq
      · rw [if_neg hlt] at ho
        exact hacc o ho

theorem getLRU_min {es : List CacheEntry} {e : CacheEntry} (hmin : IsStrictMin e es) :
    getLRUEntry es = e.hash := by
  unfold getLRUEntry
  rw [lruFold_min es ("", none) e hmin (by intro o ho; simp at ho)]

theorem evictLoop_stop (fuel req : Nat) (c : CacheManager)
    (hg : ¬ c.m_currentSize + req > c.m_maxSize) :
    evictLoop fuel req c = c := by
  cases fuel with
  | zero => rfl
  | succ fuel => rw [evictLoop, if_neg hg]

theorem evictLoop_step (fuel req : Nat) (c : CacheManager) (e : CacheEntry)
    (hg : c.m_currentSize + req > c.m_maxSize)
    (hne : c.m_entries ≠ [])
    (hlru : getLRUEntry c.m_entries ≠ "")
    (hfind : entriesFind c.m_entries (getLRUEntry c.m_entries) = some e) :
    evictLoop (fuel + 1) req c =
      evictLoop fuel req
        { c with
            m_entries := entriesErase c.m_entries (getLRUEntry c.m_entries),
            m_currentSize := c.m_currentSize - e.size,
            diskFiles := c.diskFiles.filter (fun x => !(x == getLRUEntry c.m_entries)) } := by
  rw [evictLoop, if_pos hg]
  have hemp : c.m_entries.isEmpty = false := by
    cases hq : c.m_entries with
    | nil => exact absurd hq hne
    | cons a l => rfl
  have hbl : (getLRUEntry c.m_entries == "") = false := by simp [hlru]
  simp only [hemp, Bool.false_eq_true, if_false, hbl, hfind]

theorem evictLoop_spec :
    ∀ (fuel req : Nat) (c : CacheManager),
      c.m_entries.length ≤ fuel → Accounting c → EntriesWF c.m_entries →
      Accounting (evictLoop fuel req c) ∧
      EntriesWF (evictLoop fuel req c).m_entries ∧
      (evictLoop fuel req c).m_maxSize = c.m_maxSize ∧
      (evictLoop fuel req c).m_currentSize ≤ c.m_currentSize ∧
      ((evictLoop fuel req c).m_currentSize + req ≤ c.m_maxSize ∨
        (evictLoop fuel req c).m_entries = []) := by
  intro fuel
  induction fuel with
  | zero =>
    intro req c hlen hacc hwf
    have hnil : c.m_entries = [] := List.length_eq_zero.mp (Nat.le_zero.mp hlen)
    exact ⟨hacc, hwf, rfl, le_rfl, Or.inr hnil⟩
  | succ fuel ih =>
    intro req c hlen hacc hwf
    by_cases hg : c.m_currentSize + req > c.m_maxSize
    · by_cases hne : c.m_entries = []
      · have hloop : evictLoop (fuel + 1) req c = c := by
          rw [evictLoop, if_pos hg]
          simp [hne]
        rw [hloop]
        exact ⟨hacc, hwf, rfl, le_rfl, Or.inr hne⟩
      · obtain ⟨e0, he0, hlru0⟩ := getLRU_exists hne
        have hlruNe : getLRUEntry c.m_entries ≠ "" := by
          rw [hlru0]; exact hwf.2 e0 he0
        obtain ⟨e, hfind⟩ : ∃ x, entriesFind c.m_entries (getLRUEntry c.m_entries) = some x := by
          rw [hlru0]; exact mem_find he0
        have hstep := evictLoop_step fuel req c e hg hne hlruNe hfind
        have her := erase_of_find hwf.1 hfind
        set c2 : CacheManager :=
          { c with
              m_entries := entriesErase c.m_entries (getLRUEntry c.m_entries),
              m_currentSize := c.m_currentSize - e.size,
              diskFiles := c.diskFiles.filter (fun x => !(x == getLRUEntry c.m_entries)) }
          with hc2
        have hacc2 : Accounting c2 := by
          rw [hc2]
          show c.m_currentSize - e.size =
            sumSizes (entriesErase c.m_entries (getLRUEntry c.m_entries))
          have h1 := her.1
          rw [hacc]
          omega
        have hwf2 : EntriesWF c2.m_entries := by
          rw [hc2]
          exact erase_wf hwf
        have hlen2 : c2.m_entries.length ≤ fuel := by
          rw [hc2]
          show (entriesErase c.m_entries (getLRUEntry c.m_entries)).length ≤ fuel
          have h2 := her.2
          omega
        have hbundle := ih req c2 hlen2 hacc2 hwf2
        rw [hstep]
        refine ⟨hbundle.1, hbundle.2.1, ?_, ?_, ?_⟩
        · rw [hbundle.2.2.1, hc2]
        · refine le_trans hbundle.2.2.2.1 ?_
          rw [hc2]
          show c.m_currentSize - e.size ≤ c.m_currentSize
          omega
        · rcases hbundle.2.2.2.2 with hfit | hemp2
          · left
            have hmax : c2.m_maxSize = c.m_maxSize := by rw [hc2]
            rw [← hmax]
            exact hfit
          · right
            exact hemp2
    · have hloop : evictLoop (fuel + 1) req c = c := evictLoop_stop _ _ _ hg
      rw [hloop]
      exact ⟨hacc, hwf, rfl, le_rfl, Or.inl (by omega)⟩

end CacheManager

/-! ## Claim C3 -/

/-- Claim C3 counterexample: on an initialized empty store with maxSize 10,
adding a 20-byte file succeeds and leaves currentSize = 20 > maxSize — the
claimed bound fails for a file whose size alone exceeds the maximum
(CacheManager::evict stops when the store is empty and add inserts
anyway). -/
theorem add_oversized_file_exceeds_bound :
    (CacheManager.add true true 1 c3_store "f" 20 "aabb").1 = true ∧
    (CacheManager.add true true 1 c3_store "f" 20 "aabb").2.m_currentSize = 20 ∧
    (CacheManager.add true true 1 c3_store "f" 20 "aabb").2.m_maxSize = 10 ∧
    (CacheManager.add true true 1 c3_store "f" 20 "aabb").2.m_currentSize >
      (CacheManager.add true true 1 c3_store "f" 20 "aabb").2.m_maxSize := by decide

/-- Claim C3 amended (proved): for every store whose size accounting is
consistent and whose index is well-formed, which is within its bound, and
for every file whose size is at most maxSize, immediately after
CacheManager::add returns (successfully or not) the current size is at
most the configured maximum size.  (A file larger than maxSize instead
empties the store and leaves currentSize = fileSize > maxSize, as the
counterexample shows; and a store whose accounting was already corrupted
by the defect of claim C4 can also end above the bound.) -/
theorem add_keeps_size_bound (srcOk copyOk : Bool) (now : Nat) (c : CacheManager)
    (filePath : String) (fileSize : Nat) (hash : String)
    (hacc : CacheManager.Accounting c) (hwf : CacheManager.EntriesWF c.m_entries)
    (hpre : c.m_currentSize ≤ c.m_maxSize) (hfit : fileSize ≤ c.m_maxSize) :
    (CacheManager.add srcOk copyOk now c filePath fileSize hash).2.m_currentSize ≤
      (CacheManager.add srcOk copyOk now c filePath fileSize hash).2.m_maxSize := by
  unfold CacheManager.add
  cases hinit : c.m_initialized with
  | false => simpa using hpre
  | true =>
    simp only [Bool.not_true, Bool.false_eq_true, if_false]
    by_cases hh : (hash == "") = true
    · simp only [hh, if_true]
      exact hpre
    · simp only [hh, Bool.false_eq_true, if_false]
      cases srcOk with
      | false => simpa using hpre
      | true =>
        simp only [Bool.not_true, Bool.false_eq_true, if_false]
        by_cases hg : c.m_currentSize + fileSize > c.m_maxSize
        · simp only [if_pos hg]
          have hspec := CacheManager.evictLoop_spec c.m_entries.length fileSize c
            le_rfl hacc hwf
          have hmax := hspec.2.2.1
          rcases hspec.2.2.2.2 with hfits | hempty
          · cases copyOk with
            | false =>
              simp only [Bool.not_false, if_true]
              show (CacheManager.evict fileSize c).m_currentSize ≤
                (CacheManager.evict fileSize c).m_maxSize
              unfold CacheManager.evict
              rw [hmax]
              omega
            | true =>
              simp only [Bool.not_true, Bool.false_eq_true, if_false]
              show (CacheManager.evict fileSize c).m_currentSize + fileSize ≤
                (CacheManager.evict fileSize c).m_maxSize
              unfold CacheManager.evict
              rw [hmax]
              omega
          · have hzero : (CacheManager.evict fileSize c).m_currentSize = 0 := by
              have := hspec.1
              unfold CacheManager.Accounting at this
              unfold CacheManager.evict
              rw [this, hempty]
              rfl
            cases copyOk with
            | false =>
              simp only [Bool.not_false, if_true]
              show (CacheManager.evict fileSize c).m_currentSize ≤
                (CacheManager.evict fileSize c).m_maxSize
              unfold CacheManager.evict at hzero ⊢
              rw [hzero, hmax]
              omega
            | true =>
              simp only [Bool.not_true, Bool.false_eq_true, if_false]
              show (CacheManager.evict fileSize c).m_currentSize + fileSize ≤
                (CacheManager.evict fileSize c).m_maxSize
              unfold CacheManager.evict at hzero ⊢
              rw [hzero, hmax]
              omega
        · simp only [if_neg hg]
          cases copyOk with
          | false => simpa using hpre
          | true =>
            simp only [Bool.not_true, Bool.false_eq_true, if_false]
            show c.m_currentSize + fileSize ≤ c.m_maxSize
            omega

/-- Witness for the amended C3 theorem: a consistent 6-byte store with
maxSize 10 receives a 7-byte file; the old entry is evicted and the bound
holds. -/
theorem add_keeps_size_bound_witness :
    (CacheManager.Accounting c3w_store ∧ CacheManager.EntriesWF c3w_store.m_entries ∧
      c3w_store.m_currentSize ≤ c3w_store.m_maxSize ∧ 7 ≤ c3w_store.m_maxSize) ∧
    (CacheManager.add true true 9 c3w_store "f" 7 "ccdd").2.m_currentSize ≤
      (CacheManager.add true true 9 c3w_store "f" 7 "ccdd").2.m_maxSize :=
  ⟨⟨by decide, by decide, by decide, by decide⟩,
   add_keeps_size_bound true true 9 c3w_store "f" 7 "ccdd"
     (by decide) (by decide) (by decide) (by decide)⟩

/-! ## Claim C4 -/

/-- Claim C4 (code bug): the size-accounting invariant m_currentSize = sum
of entry sizes is NOT preserved — CacheManager::get, on a hit whose
backing file no longer exists, erases the stale entry without subtracting
its size (CacheManager.cpp line 102), and CacheManager::add for a hash
already present overwrites the entry while adding the new size without
subtracting the old one (lines 75-76).  Both failing inputs are evaluated
here. -/
theorem cache_ops_break_size_accounting :
    CacheManager.Accounting c4_stale ∧
    (CacheManager.get 9 c4_stale "aabbcc").1 = none ∧
    (CacheManager.get 9 c4_stale "aabbcc").2.m_entries = [] ∧
    (CacheManager.get 9 c4_stale "aabbcc").2.m_currentSize = 5 ∧
    ¬ CacheManager.Accounting (CacheManager.get 9 c4_stale "aabbcc").2 ∧
    CacheManager.Accounting c4_dup ∧
    (CacheManager.add true true 2 c4_dup "p" 5 "ddee").1 = true ∧
    (CacheManager.add true true 2 c4_dup "p" 5 "ddee").2.m_currentSize = 10 ∧
    CacheManager.sumSizes (CacheManager.add true true 2 c4_dup "p" 5 "ddee").2.m_entries = 5 ∧
    ¬ CacheManager.Accounting (CacheManager.add true true 2 c4_dup "p" 5 "ddee").2 := by
  decide

/-! ## Claim C7 -/

/-- Claim C7 (confirmed): when eviction is forced on a store whose entries
have pairwise distinct lastAccess values, the entry selected for removal
first (by getLRUEntry) is the one with the smallest lastAccess; in the
two-entry scenario A (older lastAccess) and B (newer) with room for only
one of them, evict removes A and not B — in whichever order the map holds
the two entries — and stops as soon as the required space fits. -/
theorem evict_removes_lru_first :
    (∀ (es : List CacheEntry) (e : CacheEntry),
      CacheManager.IsStrictMin e es → CacheManager.getLRUEntry es = e.hash) ∧
    (∀ (req : Nat) (a b : CacheEntry) (c : CacheManager),
      (c.m_entries = [a, b] ∨ c.m_entries = [b, a]) →
      a.lastAccess < b.lastAccess →
      a.hash ≠ "" → b.hash ≠ "" → a.hash ≠ b.hash →
      c.m_currentSize = a.size + b.size →
      c.m_currentSize + req > c.m_maxSize →
      b.size + req ≤ c.m_maxSize →
      (CacheManager.evict req c).m_entries = [b] ∧
      (CacheManager.evict req c).m_currentSize = b.size) := by
  constructor
  · intro es e hmin
    exact CacheManager.getLRU_min hmin
  · intro req a b c horder hlt ha hb hab hcs hforce hfit
    have hne : a ≠ b := fun hcon => hab (by rw [hcon])
    have hmin : CacheManager.IsStrictMin a c.m_entries := by
      rcases horder with h | h <;> rw [h]
      · refine ⟨by simp, ?_⟩
        intro x hx hxa
        rcases List.mem_cons.mp hx with hx1 | hx1
        · exact absurd hx1 hxa
        · have hxb : x = b := by simpa using hx1
          rw [hxb]
          exact hlt
      · refine ⟨by simp, ?_⟩
        intro x hx hxa
        rcases List.mem_cons.mp hx with hx1 | hx1
        · rw [hx1]
          exact hlt
        · have hxa2 : x = a := by simpa using hx1
          exact absurd hxa2 hxa
    have hlru : CacheManager.getLRUEntry c.m_entries = a.hash :=
      CacheManager.getLRU_min hmin
    have haa : (a.hash == a.hash) = true := by simp
    have hba : (b.hash == a.hash) = false := by simp [Ne.symm hab]
    have hfind : CacheManager.entriesFind c.m_entries
        (CacheManager.getLRUEntry c.m_entries) = some a := by
      rw [hlru]
      rcases horder with h | h <;> rw [h] <;>
        simp only [CacheManager.entriesFind, List.find?, haa, hba]
    have hcne : c.m_entries ≠ [] := by
      rcases horder with h | h <;> simp [h]
    have hlruNe : CacheManager.getLRUEntry c.m_entries ≠ "" := by
      rw [hlru]; exact ha
    have hlen : c.m_entries.length = 2 := by
      rcases horder with h | h <;> simp [h]
    have herase : CacheManager.entriesErase c.m_entries
        (CacheManager.getLRUEntry c.m_entries) = [b] := by
      rw [hlru]
      rcases horder with h | h <;> rw [h] <;>
        simp [CacheManager.entriesErase, List.filter_cons, haa, hba]
    have hstep := CacheManager.evictLoop_step 1 req c a hforce hcne hlruNe hfind
    have hstop : CacheManager.evictLoop 1 req
        { c with
            m_entries := CacheManager.entriesErase c.m_entries
              (CacheManager.getLRUEntry c.m_entries),
            m_currentSize := c.m_currentSize - a.size,
            diskFiles := c.diskFiles.filter
              (fun x => !(x == CacheManager.getLRUEntry c.m_entries)) } =
        { c with
            m_entries := CacheManager.entriesErase c.m_entries
              (CacheManager.getLRUEntry c.m_entries),
            m_currentSize := c.m_currentSize - a.size,
            diskFiles := c.diskFiles.filter
              (fun x => !(x == CacheManager.getLRUEntry c.m_entries)) } := by
      apply CacheManager.evictLoop_stop
      show ¬ c.m_currentSize - a.size + req > c.m_maxSize
      omega
    have hev : CacheManager.evict req c =
        { c with
            m_entries := CacheManager.entriesErase c.m_entries
              (CacheManager.getLRUEntry c.m_entries),
            m_currentSize := c.m_currentSize - a.size,
            diskFiles := c.diskFiles.filter
              (fun x => !(x == CacheManager.getLRUEntry c.m_entries)) } := by
      unfold CacheManager.evict
      rw [hlen, show (2 : Nat) = 1 + 1 from rfl, hstep, hstop]
    rw [hev]
    constructor
    · exact herase
    · show c.m_currentSize - a.size = b.size
      omega

/-- Witness for C7: entries A (lastAccess 1) and B (lastAccess 2) of 4
bytes each in an 8-byte store; evicting to make room for 4 more bytes
removes A and keeps B. -/
theorem evict_removes_lru_first_witness :
    (c7w_store.m_entries = [c7w_a, c7w_b] ∨ c7w_store.m_entries = [c7w_b, c7w_a]) ∧
    (CacheManager.evict 4 c7w_store).m_entries = [c7w_b] ∧
    (CacheManager.evict 4 c7w_store).m_currentSize = c7w_b.size :=
  ⟨Or.inl rfl,
   evict_removes_lru_first.2 4 c7w_a c7w_b c7w_store (Or.inl rfl)
     (by decide) (by decide) (by decide) (by decide) (by decide) (by decide) (by decide)⟩

/-! ## Claim C1 -/

/-- Claim C1 (code bug): cancelling a queued-but-not-started task does NOT
set its cancellation flag and does NOT prevent its transfer.  In the
evaluated run, one task is submitted; cancelDownload with its id returns
false and leaves the coordinator state unchanged (the task is not in
m_activeTasks, and the pool closure holds its own copy with
cancelled = false); when the worker then runs the job, processDownload
proceeds and a network request is issued (networkCalls becomes 1).  The
same happens through cancelAll: it clears the queue, but the pool closure
still runs with its own uncancelled copy and issues the request. -/
theorem cancel_before_start_does_not_prevent_network :
    c1_cancel.1 = false ∧
    c1_cancel.2 = c1_add.2 ∧
    c1_cancel.2.poolJobs = [c1_job] ∧
    c1_job.task.cancelled = false ∧
    c1_final.networkCalls = 1 ∧
    c1_allCancel.m_queue = [] ∧
    c1_allFinal.networkCalls = 1 := by decide

/-! ## Claim C2 -/

/-- Claim C2 (code bug): m_queue is never popped outside cancelAll, so
after the only submitted task runs to a terminal state (completed,
m_completedTasks = m_totalTasks, no active task) the pending queue still
holds its record and the predicate waitForAll blocks on is false — the
call never returns. -/
theorem completed_downloads_leave_queue_nonempty :
    c2_add.2.poolJobs = [c2_job] ∧
    c2_final.m_completedTasks = c2_final.m_totalTasks ∧
    c2_final.m_activeTasks = [] ∧
    c2_final.completions = [("dl_1", true, "")] ∧
    c2_final.m_queue ≠ [] ∧
    DownloadManager.waitForAllPred c2_final = false := by decide

/-! ## Claim C6 -/

/-- Claim C6 counterexample: a task whose declared hash IS present in the
Cache Store (has returns true) can still be submitted to the worker pool —
when the cached backing file is gone, copyTo fails and addDownload falls
through to the enqueue path: one pool job is submitted and no completion
callback fires. -/
theorem addDownload_cached_hash_can_reach_pool :
    CacheManager.has c6_cache "aabbcc" = true ∧
    (DownloadManager.addDownload true 0 (DownloadManager.initialState c6_cache)
      c6_task 0).2.poolJobs.length = 1 ∧
    (DownloadManager.addDownload true 0 (DownloadManager.initialState c6_cache)
      c6_task 0).2.completions = [] := by decide

/-- Claim C6 amended (proved): for every task whose declared hash is
present in the Cache Store AND whose cached backing file exists and can be
copied, addDownload performs no pool submission and no queue insertion
(hence no network I/O for this task): it copies the cached file and
appends exactly one successful completion-callback invocation, carrying
the returned task id.  (When the cached copy cannot be produced the task
falls through to the normal download path, as the counterexample shows.) -/
theorem addDownload_cache_hit_short_circuits (d : DownloadManager) (task : DownloadTask)
    (priority : Int) (now : Nat)
    (hsha : task.sha1 ≠ "")
    (hhas : CacheManager.has d.m_cache task.sha1 = true)
    (hdisk : d.m_cache.diskFiles.contains task.sha1 = true) :
    (DownloadManager.addDownload true now d task priority).2.poolJobs = d.poolJobs ∧
    (DownloadManager.addDownload true now d task priority).2.m_queue = d.m_queue ∧
    (DownloadManager.addDownload true now d task priority).2.m_totalTasks = d.m_totalTasks ∧
    (DownloadManager.addDownload true now d task priority).2.networkCalls = d.networkCalls ∧
    (DownloadManager.addDownload true now d task priority).2.completions =
      d.completions ++ [((DownloadManager.addDownload true now d task priority).1, true, "")] := by
  obtain ⟨e, hf⟩ : ∃ e, CacheManager.entriesFind d.m_cache.m_entries task.sha1 = some e := by
    unfold CacheManager.has at hhas
    exact Option.isSome_iff_exists.mp hhas
  have hget : CacheManager.get now d.m_cache task.sha1 =
      (some task.sha1,
       { d.m_cache with
           m_entries := CacheManager.entriesStore d.m_cache.m_entries
             { e with lastAccess := now, accessCount := e.accessCount + 1 },
           m_hitCount := d.m_cache.m_hitCount + 1 }) := by
    unfold CacheManager.get
    rw [hf]
    have hmem : task.sha1 ∈ d.m_cache.diskFiles := by simpa using hdisk
    simp [hdisk, hmem]
  have hcopy : CacheManager.copyTo true now d.m_cache task.sha1 task.destination =
      (true, (CacheManager.get now d.m_cache task.sha1).2) := by
    unfold CacheManager.copyTo
    rw [hget]
  have hsb : (task.sha1 == "") = false := by simp [hsha]
  have hmain : DownloadManager.addDownload true now d task priority =
      ("dl_" ++ toString (d.m_nextTaskId + 1),
       { d with
           m_nextTaskId := d.m_nextTaskId + 1,
           m_cache := (CacheManager.get now d.m_cache task.sha1).2,
           completions := d.completions ++
             [("dl_" ++ toString (d.m_nextTaskId + 1), true, "")] }) := by
    unfold DownloadManager.addDownload DownloadManager.generateTaskId
    simp only [hsb, Bool.not_false, Bool.true_and, hhas, if_true]
    rw [hcopy]
  rw [hmain]
  exact ⟨rfl, rfl, rfl, rfl, rfl⟩

/-- Witness for the amended C6 theorem: the cached entry with an existing
backing file short-circuits addDownload — no pool job, one synchronous
successful completion. -/
theorem addDownload_cache_hit_short_circuits_witness :
    (DownloadManager.addDownload true 0 (DownloadManager.initialState c6_hit_cache)
        c6_task 0).2.poolJobs = (DownloadManager.initialState c6_hit_cache).poolJobs ∧
    (DownloadManager.addDownload true 0 (DownloadManager.initialState c6_hit_cache)
        c6_task 0).2.completions =
      (DownloadManager.initialState c6_hit_cache).completions ++
        [((DownloadManager.addDownload true 0 (DownloadManager.initialState c6_hit_cache)
            c6_task 0).1, true, "")] :=
  ⟨(addDownload_cache_hit_short_circuits (DownloadManager.initialState c6_hit_cache)
      c6_task 0 0 (by decide) (by decide) (by decide)).1,
   (addDownload_cache_hit_short_circuits (DownloadManager.initialState c6_hit_cache)
      c6_task 0 0 (by decide) (by decide) (by decide)).2.2.2.2⟩

end Konami
